import Mathlib

/-!
Verification development for the MAITRI ai-service emotion inference pipeline.

The Python sources embedded here are
`src/maitri/ai-service/src/services/emotion_detection.py` and
`src/maitri/ai-service/src/services/audio_processing.py`.

Modelling conventions:
* Machine floats are modelled as real numbers; where IEEE non-finite values
  (NaN/inf) can arise (division by a zero standard deviation) the value is
  tracked as `Option ℝ`, `none` standing for a non-finite float.
* External library components (mediapipe face mesh, the torch CNN weights,
  the librosa feature functions) are opaque inference functions; they are
  passed as fields of a `Service` / `LibrosaPrims` record.  The repository's
  own logic (control flow, fallbacks, arg-max selection, dictionary
  construction, normalization arithmetic, truncation/padding) is translated
  directly from the source.
* `librosa.feature.rms` is modelled concretely (centred zero-padded framing,
  root mean square per frame) because claims about short clips depend on it.
* Fallible Python code (`raise`) is modelled with `Except String`.
-/

namespace Maitri

/-- The fixed emotion label set, `EmotionDetectionService.EMOTIONS` (identical
in `AudioProcessingService.EMOTIONS`). -/
def EMOTIONS : List String :=
["angry", "disgust", "fear", "happy", "neutral", "sad", "surprise"]

/-- Face bounding box, the dictionary built in `_extract_facial_landmarks`. -/
structure BBox where
  x : ℝ
  y : ℝ
  width : ℝ
  height : ℝ

/-- Schema `FacialLandmarks` from `models/schemas.py`. -/
structure FacialLandmarks where
  landmarks : List (List ℝ)
  visibility : List ℝ
  bounding_box : BBox

/-- Schema `AudioFeatures` from `models/schemas.py`. -/
structure AudioFeatures where
  mfccs : List ℝ
  pitch : ℝ
  energy : ℝ
  spectral_centroid : ℝ
  zero_crossing_rate : ℝ
  spectral_rolloff : ℝ
  chroma : List ℝ

/-- Schema `EmotionClassification` from `models/schemas.py`: the probabilities
dictionary is kept as an association list in label-set iteration order. -/
structure EmotionClassification where
  emotion : String
  confidence : ℝ
  probabilities : List (String × ℝ)

/-- Schema `EmotionDetectionResponse` from `models/schemas.py`, restricted to the
fields the detection operations actually set (`wellness_score` is never set
by them and `timestamp` is a wall-clock default). -/
structure EmotionDetectionResponse where
  emotion : String
  confidence : ℝ
  source : String
  facial_landmarks : Option (List (List ℝ))
  audio_features : Option AudioFeatures

/-- Model of `torch.nn.functional.softmax` over a single row of logits:
entry i is exp(x i) divided by the sum of exponentials. -/
noncomputable def softmax (l : List ℝ) : List ℝ :=
  l.map (fun x => Real.exp x / (l.map Real.exp).sum)

/-- Model of `np.argmax`: the index of the first occurrence of the maximum value
(0 on an empty array mirrors no meaningful call site). -/
noncomputable def npArgmax (l : List ℝ) : ℕ :=
  match l.max? with
  | some m => l.findIdx (fun x => decide (x = m))
  | none => 0

/-- The selection logic shared verbatim by
`EmotionDetectionService._classify_emotion` (lines 325-333) and
`AudioProcessingService.detect_emotion_from_audio` (lines 201-212):
arg-max label, its probability as confidence, and the probability
dictionary keyed by `EMOTIONS[i]`. -/
noncomputable def classifyFromProbs (probabilities : List ℝ) : EmotionClassification :=
  let idx := npArgmax probabilities
  { emotion := EMOTIONS.getD idx ""
    confidence := probabilities.getD idx 0
    probabilities := EMOTIONS.zip probabilities }

/-- Translation of `EmotionDetectionService._classify_emotion`: run the CNN (opaque logits
function `vnet`, whose final layer output feeds `F.softmax`) on the face
tensor and build the classification record. -/
noncomputable def classifyEmotion {Face : Type} (vnet : Face → List ℝ) (t : Face) :
    EmotionClassification :=
  classifyFromProbs (softmax (vnet t))

/-- The loaded state of `EmotionDetectionService`: decoded-image pipeline
components that are external to the repository (PIL decoding, the mediapipe
face mesh, the cv2 crop/resize preprocessing, the CNN weights), plus the
`torch.randn` placeholder draws of `detect_multimodal_emotion` modelled as
oracle inputs. -/
structure Service (Image Face : Type) where
  decodeImage : String → Except String Image
  extractLandmarks : Image → Option FacialLandmarks
  preprocessFace : Image → FacialLandmarks → Except String Face
  visualLogits : Face → List ℝ
  randVisual : List ℝ
  randAudio : List ℝ
  fusionLogits : List ℝ → List ℝ → List ℝ

/-- Translation of `EmotionDetectionService.detect_emotion` (lines 345-387): requires image
data (raises `ValueError` otherwise, ignoring any audio), decodes the image,
extracts landmarks, and either returns the explicit no-face fallback verdict
or classifies the preprocessed face. -/
noncomputable def detect_emotion {Image Face : Type} (S : Service Image Face)
    (image_data : Option String) (audio_data : Option String)
    (session_id : String) : Except String EmotionDetectionResponse :=
  match image_data with
  | none => Except.error "Image data is required for emotion detection"
  | some data =>
    match S.decodeImage data with
    | Except.error e => Except.error e
    | Except.ok image =>
      match S.extractLandmarks image with
      | none =>
        Except.ok { emotion := "neutral", confidence := 0.5, source := "video",
                    facial_landmarks := none, audio_features := none }
      | some lms =>
        match S.preprocessFace image lms with
        | Except.error e => Except.error e
        | Except.ok face =>
          let r := classifyEmotion S.visualLogits face
          Except.ok { emotion := r.emotion, confidence := r.confidence,
                      source := "video", facial_landmarks := some lms.landmarks,
                      audio_features := none }

/-- Translation of `EmotionDetectionService.detect_multimodal_emotion` (lines 389-435):
decode, landmark extraction; with no face it returns the constant fallback
verdict tagged `source="audio"`; with a face it classifies the fusion output
of the placeholder feature draws. -/
noncomputable def detect_multimodal_emotion {Image Face : Type}
    (S : Service Image Face) (image_data : String) (audio_data : String)
    (session_id : String) : Except String EmotionDetectionResponse :=
  match S.decodeImage image_data with
  | Except.error e => Except.error e
  | Except.ok image =>
    match S.extractLandmarks image with
    | none =>
      Except.ok { emotion := "neutral", confidence := 0.5, source := "audio",
                  facial_landmarks := none, audio_features := none }
    | some lms =>
      let probabilities := softmax (S.fusionLogits S.randVisual S.randAudio)
      let idx := npArgmax probabilities
      Except.ok { emotion := EMOTIONS.getD idx "", confidence := probabilities.getD idx 0,
                  source := "multimodal", facial_landmarks := some lms.landmarks,
                  audio_features := none }

/-- State-passing form of `detect_emotion`: the inference path only reads the
loaded handles (`self.emotion_model` under `torch.no_grad()`, the mediapipe
processors) and performs no assignment to service state, so the state
component comes back unchanged. -/
noncomputable def detect_emotion_st {Image Face : Type} (S : Service Image Face)
    (image_data : Option String) (audio_data : Option String)
    (session_id : String) :
    Except String EmotionDetectionResponse × Service Image Face :=
  (detect_emotion S image_data audio_data session_id, S)

/-- A concrete trivial service over unit image/face types, used to instantiate
the abstract external components at concrete inputs. -/
noncomputable def trivService : Service Unit Unit where
  decodeImage := fun _ => Except.ok ()
  extractLandmarks := fun _ => none
  preprocessFace := fun _ _ => Except.ok ()
  visualLogits := fun _ => List.replicate 7 0
  randVisual := []
  randAudio := []
  fusionLogits := fun _ _ => List.replicate 7 0

/-- Mean of a list of floats (`np.mean` over a 1-D array). -/
noncomputable def listMean (l : List ℝ) : ℝ := l.sum / l.length

/-- Sum of squares of a list of floats. -/
def sumSq (l : List ℝ) : ℝ := (l.map (fun x => x ^ 2)).sum

/-- Constant: `librosa.feature.rms` default analysis frame length. -/
def frameLength : ℕ := 2048

/-- Constant: `librosa.feature.rms` default hop length. -/
def hopLength : ℕ := 512

/-- Centred zero padding applied by librosa before framing
(`frame_length // 2` zeros on each side). -/
def padCenter (y : List ℝ) : List ℝ :=
  (List.replicate (frameLength / 2) 0 ++ y) ++ List.replicate (frameLength / 2) 0

/-- Number of analysis frames of a padded signal of length `n`. -/
def frameCount (n : ℕ) : ℕ :=
  if frameLength ≤ n then (n - frameLength) / hopLength + 1 else 0

/-- Frame `j` of a padded signal: `frameLength` samples starting at
`j * hopLength`. -/
def frameAt (y : List ℝ) (j : ℕ) : List ℝ :=
  (y.drop (j * hopLength)).take frameLength

/-- Model of `librosa.feature.rms(y=audio)[0]`: per-frame root mean square of the
centre-padded signal. -/
noncomputable def rmsList (y : List ℝ) : List ℝ :=
  (List.range (frameCount (padCenter y).length)).map
    (fun j => Real.sqrt (sumSq (frameAt (padCenter y) j) / frameLength))

/-- The librosa feature functions `AudioProcessingService.extract_audio_features`
calls besides `rms`; they are external library inference primitives
(matrices are row lists). `piptrackPitches` is the flattened pitch matrix of
`librosa.piptrack`. -/
structure LibrosaPrims where
  mfcc : List ℝ → List (List ℝ)
  piptrackPitches : List ℝ → List ℝ
  spectralCentroid : List ℝ → List ℝ
  zeroCrossingRate : List ℝ → List ℝ
  spectralRolloff : List ℝ → List ℝ
  chromaStft : List ℝ → List (List ℝ)

/-- Translation of `AudioProcessingService.extract_audio_features` (lines 113-148): per-row
means of mfcc and chroma matrices, mean of positive tracked pitches with a
0.0 fallback when none are positive, mean RMS energy, and means of the
spectral descriptor tracks.  There is no branch on the clip length. -/
noncomputable def extractAudioFeatures (P : LibrosaPrims) (audio : List ℝ) :
    AudioFeatures :=
  let pos := (P.piptrackPitches audio).filter (fun x => decide (0 < x))
  { mfccs := (P.mfcc audio).map listMean
    pitch := if pos.isEmpty then 0 else listMean pos
    energy := listMean (rmsList audio)
    spectral_centroid := listMean (P.spectralCentroid audio)
    zero_crossing_rate := listMean (P.zeroCrossingRate audio)
    spectral_rolloff := listMean (P.spectralRolloff audio)
    chroma := (P.chromaStft audio).map listMean }

/-- The property claimed for short clips: every numeric field of the returned
`AudioFeatures` is zero. -/
def zeroFilledFeatures (f : AudioFeatures) : Prop :=
  (∀ c ∈ f.mfccs, c = 0) ∧ f.pitch = 0 ∧ f.energy = 0 ∧
  f.spectral_centroid = 0 ∧ f.zero_crossing_rate = 0 ∧
  f.spectral_rolloff = 0 ∧ ∀ c ∈ f.chroma, c = 0

/-- Sum of all entries of a matrix (row list). -/
def matSum (m : List (List ℝ)) : ℝ := (m.map List.sum).sum

/-- Number of entries of a matrix (row list). -/
def matCount (m : List (List ℝ)) : ℕ := (m.map List.length).sum

/-- Model of `np.mean` over a 2-D array. -/
noncomputable def matMean (m : List (List ℝ)) : ℝ := matSum m / matCount m

/-- Model of `np.std` over a 2-D array (population standard deviation). -/
noncomputable def matStd (m : List (List ℝ)) : ℝ :=
  Real.sqrt ((m.map (fun r => (r.map (fun x => (x - matMean m) ^ 2)).sum)).sum / matCount m)

/-- IEEE float division with the non-finite outcome tracked: dividing by zero
produces NaN or an infinity, both non-finite, modelled as `none`. -/
noncomputable def safeDiv (x y : ℝ) : Option ℝ :=
  if y = 0 then none else some (x / y)

/-- The normalization line of `AudioProcessingService._create_spectrogram`
(line 165): `(log_mel_spec - np.mean(log_mel_spec)) / np.std(log_mel_spec)`,
entrywise, with non-finite results tracked as `none`.  The source has no
epsilon guard on the standard deviation. -/
noncomputable def normalizeSpec (m : List (List ℝ)) : List (List (Option ℝ)) :=
  m.map (fun r => r.map (fun x => safeDiv (x - matMean m) (matStd m)))

/-- Column count of a matrix, `arr.shape[1]` of a rectangular numpy array. -/
def numCols {α : Type} (m : List (List α)) : ℕ :=
  match m with
  | [] => 0
  | r :: _ => r.length

/-- A row list is rectangular (what numpy guarantees for a 2-D array). -/
def rectangular {α : Type} (m : List (List α)) : Prop :=
  ∀ r ∈ m, r.length = numCols m

/-- The configured fixed time-axis frame count of the CNN spectrogram input. -/
def specFrames : ℕ := 128

/-- The resize step of `_create_spectrogram` (lines 167-173): truncate each
row to 128 columns if the array is wider, otherwise pad each row on the
right with constant zeros up to 128 columns. -/
noncomputable def resizeTimeAxis (m : List (List (Option ℝ))) : List (List (Option ℝ)) :=
  if specFrames < numCols m then m.map (fun r => r.take specFrames)
  else m.map (fun r => r ++ List.replicate (specFrames - numCols m) (some 0))

/-- Translation of `AudioProcessingService._create_spectrogram` (lines 150-182): the
log-scaled mel spectrogram (librosa `melspectrogram` + `power_to_db`, an
external primitive `logMel`), normalized per-clip and forced to the fixed
time-axis length. -/
noncomputable def createSpectrogram (logMel : List ℝ → List (List ℝ))
    (audio : List ℝ) : List (List (Option ℝ)) :=
  resizeTimeAxis (normalizeSpec (logMel audio))

/-- Every entry of the produced tensor is a finite float. -/
def allFinite (m : List (List (Option ℝ))) : Prop :=
  ∀ r ∈ m, ∀ x ∈ r, x.isSome = true

/-- The loaded state of `AudioProcessingService`: the librosa decoder and
feature primitives plus the audio CNN weights (logits before the final
`F.softmax`). -/
structure AudioService where
  decodeAudio : String → Except String (List ℝ)
  prims : LibrosaPrims
  logMel : List ℝ → List (List ℝ)
  audioLogits : List (List (Option ℝ)) → List ℝ

/-- The dictionary returned by
`AudioProcessingService.detect_emotion_from_audio`. -/
structure AudioEmotionResult where
  emotion : String
  confidence : ℝ
  audio_features : AudioFeatures
  probabilities : List (String × ℝ)

/-- Translation of `AudioProcessingService.detect_emotion_from_audio` (lines 184-217):
decode, extract features, build the spectrogram, run the audio CNN, and
select the arg-max emotion with its probability dictionary. -/
noncomputable def detect_emotion_from_audio (A : AudioService)
    (audio_data : String) : Except String AudioEmotionResult :=
  match A.decodeAudio audio_data with
  | Except.error e => Except.error e
  | Except.ok audio =>
    let features := extractAudioFeatures A.prims audio
    let spectrogram := createSpectrogram A.logMel audio
    let probabilities := softmax (A.audioLogits spectrogram)
    let idx := npArgmax probabilities
    Except.ok { emotion := EMOTIONS.getD idx "", confidence := probabilities.getD idx 0,
                audio_features := features, probabilities := EMOTIONS.zip probabilities }

/-- Trivial librosa primitives for instantiating counterexamples; the fields
concretely modelled elsewhere (rms) do not appear here. -/
def trivPrims : LibrosaPrims where
  mfcc := fun _ => []
  piptrackPitches := fun _ => []
  spectralCentroid := fun _ => []
  zeroCrossingRate := fun _ => []
  spectralRolloff := fun _ => []
  chromaStft := fun _ => []

/-- A concrete audio service: empty decoded clip, trivial feature primitives,
and an audio CNN returning the all-zero logit row of width 7 (the shape the
`AudioEmotionCNN` architecture guarantees). -/
def trivAudioService : AudioService where
  decodeAudio := fun _ => Except.ok []
  prims := trivPrims
  logMel := fun _ => []
  audioLogits := fun _ => List.replicate 7 0

/-- A silent clip: one second of zeros at the configured 22050 Hz rate. -/
def silentClip : List ℝ := List.replicate 22050 0

/-- The log-mel spectrogram librosa produces for a silent clip: a constant
(all-zero, since `power_to_db` references the maximum) 128 × 44 matrix. -/
def silentLogMel : List ℝ → List (List ℝ) :=
  fun _ => List.replicate 128 (List.replicate 44 0)

/-- Antisymmetry of `≤` on the reals in the form `List.max?_eq_some_iff`
expects. -/
instance : Std.Antisymm (fun a b : ℝ => a ≤ b) := ⟨fun h1 h2 => le_antisymm h1 h2⟩

/-- A nonempty float list has a maximum that is attained and dominates. -/
theorem list_max_spec (l : List ℝ) (h : l ≠ []) :
    ∃ m, l.max? = some m ∧ m ∈ l ∧ ∀ b ∈ l, b ≤ m := by
  cases hm : l.max? with
  | none => exact absurd (List.max?_eq_none_iff.mp hm) h
  | some m =>
    refine ⟨m, rfl, ?_⟩
    rw [List.max?_eq_some_iff le_refl max_choice (fun _ _ _ => max_le_iff)] at hm
    exact hm

/-- Proved `np.argmax` semantics: the returned index is in range, its entry
dominates every entry, and every strictly earlier entry is strictly
smaller (first occurrence of the maximum wins). -/
theorem npArgmax_spec (l : List ℝ) (h : l ≠ []) :
    npArgmax l < l.length ∧
    (∀ j, j < l.length → l.getD j 0 ≤ l.getD (npArgmax l) 0) ∧
    (∀ j, j < npArgmax l → l.getD j 0 < l.getD (npArgmax l) 0) := by
  obtain ⟨m, hm, hmem, hle⟩ := list_max_spec l h
  have hidx : npArgmax l = l.findIdx (fun x => decide (x = m)) := by
    unfold npArgmax; rw [hm]
  have hex : ∃ x ∈ l, (fun x => decide (x = m)) x = true := ⟨m, hmem, by simp⟩
  have hlt : l.findIdx (fun x => decide (x = m)) < l.length :=
    List.findIdx_lt_length_of_exists hex
  have hlt' : npArgmax l < l.length := by rw [hidx]; exact hlt
  have hp := @List.findIdx_getElem _ (fun x => decide (x = m)) l hlt
  simp only [decide_eq_true_eq] at hp
  have hval0 : l.getD (l.findIdx (fun x => decide (x = m))) 0 = m := by
    rw [List.getD_eq_getElem l 0 hlt]
    exact hp
  have hval : l.getD (npArgmax l) 0 = m := by
    rw [hidx]
    exact hval0
  refine ⟨hlt', ?_, ?_⟩
  · intro j hj
    rw [hval, List.getD_eq_getElem l 0 hj]
    exact hle _ (List.getElem_mem hj)
  · intro j hj
    have hjlen : j < l.length := lt_trans hj hlt'
    have hjidx : j < l.findIdx (fun x => decide (x = m)) := by rw [← hidx]; exact hj
    have hne := List.not_of_lt_findIdx hjidx
    simp only [decide_eq_false_iff_not] at hne
    rw [hval, List.getD_eq_getElem l 0 hjlen]
    exact lt_of_le_of_ne (hle _ (List.getElem_mem hjlen)) hne

/-- Softmax preserves the row width. -/
theorem softmax_length (l : List ℝ) : (softmax l).length = l.length := by
  simp [softmax]

/-- The exponential sum in the softmax denominator is positive. -/
theorem exp_sum_pos (l : List ℝ) (h : l ≠ []) : 0 < (l.map Real.exp).sum := by
  apply List.sum_pos
  · intro x hx
    obtain ⟨y, _, rfl⟩ := List.mem_map.mp hx
    exact Real.exp_pos y
  · simpa using h

/-- Softmax output sums to exactly one on a nonempty row. -/
theorem softmax_sum (l : List ℝ) (h : l ≠ []) : (softmax l).sum = 1 := by
  unfold softmax
  simp only [div_eq_mul_inv]
  rw [List.sum_map_mul_right]
  exact mul_inv_cancel₀ (ne_of_gt (exp_sum_pos l h))

/-- Every softmax output entry is non-negative. -/
theorem softmax_nonneg (l : List ℝ) : ∀ p ∈ softmax l, 0 ≤ p := by
  intro p hp
  obtain ⟨x, hx, rfl⟩ := List.mem_map.mp hp
  have hne : l ≠ [] := List.ne_nil_of_mem hx
  exact div_nonneg (Real.exp_pos x).le (exp_sum_pos l hne).le

/-- Looking a key picked from a duplicate-free key list up in the zipped
association list returns the value at the same position. -/
theorem lookup_zip_getD (keys : List String) (vals : List ℝ) (i : ℕ)
    (hnd : keys.Nodup) (hik : i < keys.length) (hiv : i < vals.length) :
    (keys.zip vals).lookup (keys.getD i "") = some (vals.getD i 0) := by
  induction keys generalizing vals i with
  | nil => simp at hik
  | cons k ks ih =>
    cases vals with
    | nil => simp at hiv
    | cons v vs =>
      cases i with
      | zero => simp [List.lookup]
      | succ i =>
        have hk : k ∉ ks := (List.nodup_cons.mp hnd).1
        have hik' : i < ks.length := by simpa using hik
        have hiv' : i < vs.length := by simpa using hiv
        have hmem : ks.getD i "" ∈ ks := by
          rw [List.getD_eq_getElem ks "" hik']
          exact List.getElem_mem hik'
        have hne : (ks.getD i "" == k) = false := by
          rw [beq_eq_false_iff_ne]
          intro he
          exact hk (he ▸ hmem)
        have hzip : (k :: ks).zip (v :: vs) = (k, v) :: ks.zip vs := rfl
        rw [hzip, List.getD_cons_succ, List.lookup_cons]
        simp only [hne]
        exact ih vs i (List.nodup_cons.mp hnd).2 hik' hiv'

/-- C1 counterexample: with audio present and no image, `detect_emotion`
raises `ValueError("Image data is required for emotion detection")` instead
of returning a `source="audio"` verdict. -/
theorem c1_counterexample :
    detect_emotion trivService none (some "voice-clip") "s1" =
      Except.error "Image data is required for emotion detection" := rfl

/-- C1 (amended): for every request with audio input present and no image
input, `detect_emotion` raises `ValueError` ("Image data is required for
emotion detection") without running any audio pipeline; the acoustic
feature / spectrogram / audio classifier path is reachable only through
`AudioProcessingService.detect_emotion_from_audio`. -/
theorem c1_audio_only_raises {Image Face : Type} (S : Service Image Face)
    (audio : String) (session_id : String) :
    detect_emotion S none (some audio) session_id =
      Except.error "Image data is required for emotion detection" := rfl

/-- C2 (amended): when both modalities are supplied and no face is detected,
`detect_multimodal_emotion` returns the constant fallback verdict
{emotion=neutral, confidence=0.5, source=audio, landmarks=None} without
invoking the audio classifier: the supplied audio is never processed. -/
theorem c2_no_face_constant_fallback {Image Face : Type} (S : Service Image Face)
    (image_data audio_data session_id : String) (i : Image)
    (hdec : S.decodeImage image_data = Except.ok i)
    (hface : S.extractLandmarks i = none) :
    detect_multimodal_emotion S image_data audio_data session_id =
      Except.ok { emotion := "neutral", confidence := 0.5, source := "audio",
                  facial_landmarks := none, audio_features := none } := by
  simp [detect_multimodal_emotion, hdec, hface]

/-- C2 amended witness at a concrete service. -/
theorem c2_no_face_constant_fallback_witness :
    (trivService.decodeImage "img" = Except.ok () ∧
      trivService.extractLandmarks () = none) ∧
    detect_multimodal_emotion trivService "img" "aud" "s1" =
      Except.ok { emotion := "neutral", confidence := 0.5, source := "audio",
                  facial_landmarks := none, audio_features := none } :=
  ⟨⟨rfl, rfl⟩, c2_no_face_constant_fallback trivService "img" "aud" "s1" () rfl rfl⟩

/-- C4: for every image in which no face is detected (and no audio input),
`detect_emotion` returns the explicit fallback verdict {emotion=neutral,
confidence=0.5, source=video, landmarks=None} and does not raise. -/
theorem c4_no_face_fallback {Image Face : Type} (S : Service Image Face)
    (image_data session_id : String) (i : Image)
    (hdec : S.decodeImage image_data = Except.ok i)
    (hface : S.extractLandmarks i = none) :
    detect_emotion S (some image_data) none session_id =
      Except.ok { emotion := "neutral", confidence := 0.5, source := "video",
                  facial_landmarks := none, audio_features := none } := by
  simp [detect_emotion, hdec, hface]

/-- C4 witness at a concrete service. -/
theorem c4_no_face_fallback_witness :
    (trivService.decodeImage "img" = Except.ok () ∧
      trivService.extractLandmarks () = none) ∧
    detect_emotion trivService (some "img") none "s1" =
      Except.ok { emotion := "neutral", confidence := 0.5, source := "video",
                  facial_landmarks := none, audio_features := none } :=
  ⟨⟨rfl, rfl⟩, c4_no_face_fallback trivService "img" "s1" () rfl rfl⟩

/-- C9: two invocations of `detect_emotion` with identical inputs against the
same loaded classifier handles yield identical responses (in particular the
same predicted label), the inference path leaving the service state — the
loaded handles — unchanged between the runs. -/
theorem c9_two_run_determinism {Image Face : Type} (S : Service Image Face)
    (image_data audio_data : Option String) (session_id : String) :
    (detect_emotion_st S image_data audio_data session_id).2 = S ∧
    (detect_emotion_st (detect_emotion_st S image_data audio_data session_id).2
        image_data audio_data session_id).1 =
      (detect_emotion_st S image_data audio_data session_id).1 ∧
    ((detect_emotion_st (detect_emotion_st S image_data audio_data session_id).2
        image_data audio_data session_id).1.map (fun r => r.emotion) =
      (detect_emotion_st S image_data audio_data session_id).1.map
        (fun r => r.emotion)) :=
  ⟨rfl, rfl, rfl⟩

/-- The maximum of the uniform 7-entry distribution. -/
theorem max_replicate_seventh : (List.replicate 7 ((1:ℝ)/7)).max? = some (1/7) := by
  rw [List.max?_eq_some_iff le_refl max_choice (fun _ _ _ => max_le_iff)]
  constructor
  · simp [List.mem_replicate]
  · intro b hb
    rw [List.eq_of_mem_replicate hb]

/-- Softmax of the all-zero 7-logit row is the uniform distribution. -/
theorem softmax_replicate_zero :
    softmax (List.replicate 7 (0:ℝ)) = List.replicate 7 (1/7) := by
  unfold softmax
  rw [List.map_replicate, List.map_replicate, Real.exp_zero, List.sum_replicate]
  congr 1
  norm_num

/-- Value of `np.argmax` on the uniform 7-entry distribution is 0 (all entries tie
and the first wins). -/
theorem npArgmax_uniform : npArgmax (List.replicate 7 ((1:ℝ)/7)) = 0 := by
  have h : npArgmax (List.replicate 7 ((1:ℝ)/7)) =
      (List.replicate 7 ((1:ℝ)/7)).findIdx (fun x => decide (x = 1/7)) := by
    unfold npArgmax
    rw [max_replicate_seventh]
  rw [h]
  have h2 : List.replicate 7 ((1:ℝ)/7) = (1/7) :: List.replicate 6 (1/7) := rfl
  rw [h2, List.findIdx_cons]
  simp

/-- C2 counterexample: with a no-face image and audio supplied,
`detect_multimodal_emotion` returns the constant verdict (neutral, 0.5),
while the audio classifier run on the same supplied audio (here a service
whose CNN emits the all-zero logit row) returns ("angry", 1/7) — so the
fallback verdict's emotion, confidence and distribution are not the audio
classifier's output. -/
theorem c2_counterexample :
    detect_multimodal_emotion trivService "img" "aud" "s1" =
      Except.ok { emotion := "neutral", confidence := 0.5, source := "audio",
                  facial_landmarks := none, audio_features := none } ∧
    (detect_emotion_from_audio trivAudioService "aud").map
        (fun r => (r.emotion, r.confidence)) = Except.ok ("angry", 1/7) ∧
    "angry" ≠ "neutral" ∧ ((1:ℝ)/7) ≠ 0.5 := by
  refine ⟨rfl, ?_, by decide, by norm_num⟩
  have hstep : detect_emotion_from_audio trivAudioService "aud" =
      Except.ok { emotion := EMOTIONS.getD (npArgmax (softmax (List.replicate 7 0))) "",
                  confidence := (softmax (List.replicate 7 0)).getD
                    (npArgmax (softmax (List.replicate 7 0))) 0,
                  audio_features := extractAudioFeatures trivPrims [],
                  probabilities := EMOTIONS.zip (softmax (List.replicate 7 0)) } := rfl
  rw [hstep]
  simp only [Except.map, softmax_replicate_zero, npArgmax_uniform]
  rfl

/-- Column count of a nonempty replicated row list. -/
theorem numCols_replicate {α : Type} (n : ℕ) (hn : n ≠ 0) (r : List α) :
    numCols (List.replicate n r) = r.length := by
  cases n with
  | zero => exact absurd rfl hn
  | succ n => rfl

/-- The total of an all-zero matrix is zero. -/
theorem matSum_const_zero (p q : ℕ) :
    matSum (List.replicate p (List.replicate q (0:ℝ))) = 0 := by
  simp [matSum, List.map_replicate, List.sum_replicate]

/-- The mean of an all-zero matrix is zero. -/
theorem matMean_const_zero (p q : ℕ) :
    matMean (List.replicate p (List.replicate q (0:ℝ))) = 0 := by
  simp [matMean, matSum_const_zero]

/-- The standard deviation of an all-zero matrix is zero. -/
theorem matStd_const_zero (p q : ℕ) :
    matStd (List.replicate p (List.replicate q (0:ℝ))) = 0 := by
  simp [matStd, matMean_const_zero, List.map_replicate, List.sum_replicate]

/-- Normalizing an all-zero matrix divides 0 by a 0 standard deviation in
every entry, so every entry becomes non-finite. -/
theorem normalizeSpec_const_zero (p q : ℕ) :
    normalizeSpec (List.replicate p (List.replicate q (0:ℝ))) =
      List.replicate p (List.replicate q none) := by
  simp only [normalizeSpec, matStd_const_zero, matMean_const_zero, List.map_replicate]
  simp [safeDiv]

/-- C3: on a silent clip the log-mel spectrogram is a constant matrix, its
standard deviation is 0, and the source's unguarded normalization
`(x - mean) / std` divides by that zero, so every normalized entry is
non-finite (NaN) and the produced tensor is not all-finite — the epsilon
substitution the claim describes does not exist in the code. -/
theorem c3_silence_divide_by_zero :
    matStd (silentLogMel silentClip) = 0 ∧
    normalizeSpec (silentLogMel silentClip) =
      List.replicate 128 (List.replicate 44 none) ∧
    ¬ allFinite (createSpectrogram silentLogMel silentClip) := by
  have h0 : silentLogMel silentClip = List.replicate 128 (List.replicate 44 (0:ℝ)) := rfl
  have hstd : matStd (silentLogMel silentClip) = 0 := by
    rw [h0]
    exact matStd_const_zero 128 44
  have hnorm : normalizeSpec (silentLogMel silentClip) =
      List.replicate 128 (List.replicate 44 none) := by
    rw [h0]
    exact normalizeSpec_const_zero 128 44
  refine ⟨hstd, hnorm, ?_⟩
  intro hfin
  have hnc : numCols (List.replicate 128 (List.replicate 44 (none : Option ℝ))) = 44 := by
    rw [numCols_replicate 128 (by norm_num)]
    simp
  have hresize : createSpectrogram silentLogMel silentClip =
      List.replicate 128
        (List.replicate 44 (none : Option ℝ) ++
          List.replicate (specFrames - 44) (some 0)) := by
    unfold createSpectrogram
    rw [hnorm]
    unfold resizeTimeAxis
    rw [hnc]
    rw [if_neg (by norm_num [specFrames])]
    rw [List.map_replicate]
  have hrow : (List.replicate 44 (none : Option ℝ) ++
      List.replicate (specFrames - 44) (some 0)) ∈
      createSpectrogram silentLogMel silentClip := by
    rw [hresize]
    exact List.mem_replicate.mpr ⟨by norm_num, rfl⟩
  have hmem : (none : Option ℝ) ∈
      List.replicate 44 (none : Option ℝ) ++ List.replicate (specFrames - 44) (some 0) :=
    List.mem_append.mpr (Or.inl (List.mem_replicate.mpr ⟨by norm_num, rfl⟩))
  have := hfin _ hrow none hmem
  simp at this

/-- C7: for every valid fixed-shape input (network logits row of width 7,
the shape the CNN architecture guarantees), the classifier output
distribution has exactly one entry per label of the fixed 7-label set
(keys are `EMOTIONS`, which is duplicate-free), every value is
non-negative, and the values sum to 1.0 within 1e-6. -/
theorem c7_distribution_invariant {Face : Type} (vnet : Face → List ℝ) (t : Face)
    (h7 : (vnet t).length = 7) :
    ((classifyEmotion vnet t).probabilities.map Prod.fst = EMOTIONS ∧ EMOTIONS.Nodup) ∧
    (∀ q ∈ (classifyEmotion vnet t).probabilities, 0 ≤ q.2) ∧
    |((classifyEmotion vnet t).probabilities.map Prod.snd).sum - 1| ≤ 1 / 1000000 := by
  have hne : vnet t ≠ [] := by
    intro h0; rw [h0] at h7; simp at h7
  have hlen : (softmax (vnet t)).length = 7 := by rw [softmax_length, h7]
  have hprob : (classifyEmotion vnet t).probabilities =
      EMOTIONS.zip (softmax (vnet t)) := rfl
  have hlen7 : EMOTIONS.length = 7 := rfl
  refine ⟨⟨?_, by decide⟩, ?_, ?_⟩
  · rw [hprob, List.map_fst_zip]
    rw [hlen, hlen7]
  · intro q hq
    rw [hprob] at hq
    have h2 : q.2 ∈ (EMOTIONS.zip (softmax (vnet t))).map Prod.snd :=
      List.mem_map_of_mem Prod.snd hq
    rw [List.map_snd_zip _ _ (by rw [hlen, hlen7])] at h2
    exact softmax_nonneg _ _ h2
  · rw [hprob, List.map_snd_zip _ _ (by rw [hlen, hlen7]), softmax_sum _ hne]
    norm_num

/-- C7 witness at the concrete service (all-zero logit row of width 7). -/
theorem c7_distribution_invariant_witness :
    (trivService.visualLogits ()).length = 7 ∧
    (((classifyEmotion trivService.visualLogits ()).probabilities.map Prod.fst = EMOTIONS ∧
        EMOTIONS.Nodup) ∧
      (∀ q ∈ (classifyEmotion trivService.visualLogits ()).probabilities, 0 ≤ q.2) ∧
      |((classifyEmotion trivService.visualLogits ()).probabilities.map Prod.snd).sum - 1| ≤
        1 / 1000000) :=
  ⟨rfl, c7_distribution_invariant trivService.visualLogits () rfl⟩

/-- C8: for every output probability row (width 7), the predicted label is
the arg-max of the distribution — the selected index is in range, its entry
dominates all entries, and all strictly earlier entries are strictly
smaller, so a tie is broken towards the first label in the fixed iteration
order. -/
theorem c8_argmax_first_occurrence (probs : List ℝ) (h7 : probs.length = 7) :
    (classifyFromProbs probs).emotion = EMOTIONS.getD (npArgmax probs) "" ∧
    npArgmax probs < probs.length ∧
    (∀ j, j < probs.length → probs.getD j 0 ≤ probs.getD (npArgmax probs) 0) ∧
    (∀ j, j < npArgmax probs → probs.getD j 0 < probs.getD (npArgmax probs) 0) := by
  have hne : probs ≠ [] := by intro h0; rw [h0] at h7; simp at h7
  obtain ⟨h1, h2, h3⟩ := npArgmax_spec probs hne
  exact ⟨rfl, h1, h2, h3⟩

/-- C8 witness at a concrete distribution with a tie between indices 1 and 2. -/
theorem c8_argmax_first_occurrence_witness :
    ([(0:ℝ), 3, 3, 0, 0, 0, 0].length = 7) ∧
    ((classifyFromProbs [(0:ℝ), 3, 3, 0, 0, 0, 0]).emotion =
        EMOTIONS.getD (npArgmax [(0:ℝ), 3, 3, 0, 0, 0, 0]) "" ∧
      npArgmax [(0:ℝ), 3, 3, 0, 0, 0, 0] < [(0:ℝ), 3, 3, 0, 0, 0, 0].length ∧
      (∀ j, j < [(0:ℝ), 3, 3, 0, 0, 0, 0].length →
        [(0:ℝ), 3, 3, 0, 0, 0, 0].getD j 0 ≤
          [(0:ℝ), 3, 3, 0, 0, 0, 0].getD (npArgmax [(0:ℝ), 3, 3, 0, 0, 0, 0]) 0) ∧
      (∀ j, j < npArgmax [(0:ℝ), 3, 3, 0, 0, 0, 0] →
        [(0:ℝ), 3, 3, 0, 0, 0, 0].getD j 0 <
          [(0:ℝ), 3, 3, 0, 0, 0, 0].getD (npArgmax [(0:ℝ), 3, 3, 0, 0, 0, 0]) 0)) :=
  ⟨rfl, c8_argmax_first_occurrence [(0:ℝ), 3, 3, 0, 0, 0, 0] rfl⟩

/-- C10: for every classifier-path verdict, the returned confidence is the
probability the returned distribution assigns to the returned emotion
(its lookup in the probability dictionary), and that value is the maximum
entry of the distribution. -/
theorem c10_confidence_is_argmax_prob (probs : List ℝ) (h7 : probs.length = 7) :
    (classifyFromProbs probs).confidence = probs.getD (npArgmax probs) 0 ∧
    (classifyFromProbs probs).probabilities.lookup (classifyFromProbs probs).emotion =
      some ((classifyFromProbs probs).confidence) ∧
    ∀ q ∈ (classifyFromProbs probs).probabilities,
      q.2 ≤ (classifyFromProbs probs).confidence := by
  have hne : probs ≠ [] := by intro h0; rw [h0] at h7; simp at h7
  obtain ⟨hlt, hmax, _⟩ := npArgmax_spec probs hne
  have hik : npArgmax probs < EMOTIONS.length := by
    have h1 : EMOTIONS.length = 7 := rfl
    rw [h1, ← h7]
    exact hlt
  refine ⟨rfl, ?_, ?_⟩
  · exact lookup_zip_getD EMOTIONS probs (npArgmax probs) (by decide) hik hlt
  · intro q hq
    have hq2 : q.2 ∈ (EMOTIONS.zip probs).map Prod.snd :=
      List.mem_map_of_mem Prod.snd hq
    rw [List.map_snd_zip _ _ (by rw [h7]; decide)] at hq2
    obtain ⟨j, hj, hval⟩ := List.mem_iff_getElem.mp hq2
    have hjd : q.2 = probs.getD j 0 := by rw [List.getD_eq_getElem probs 0 hj, hval]
    rw [hjd]
    exact hmax j hj

/-- Centre padding adds one analysis frame of zeros in total. -/
theorem padCenter_length (y : List ℝ) :
    (padCenter y).length = y.length + frameLength := by
  unfold padCenter
  rw [List.length_append, List.length_append, List.length_replicate]
  have h1 : frameLength / 2 = 1024 := rfl
  have h2 : frameLength = 2048 := rfl
  rw [h1, h2]
  omega

/-- A padded clip of any length yields `len / hop + 1` analysis frames. -/
theorem frameCount_padded (y : List ℝ) :
    frameCount (padCenter y).length = y.length / hopLength + 1 := by
  rw [padCenter_length]
  unfold frameCount
  rw [if_pos (Nat.le_add_left _ _), Nat.add_sub_cancel]

/-- A sum of squares with a nonzero member is strictly positive. -/
theorem sumSq_pos_of_mem (l : List ℝ) (x : ℝ) (hx : x ∈ l) (hx0 : x ≠ 0) :
    0 < sumSq l := by
  have h1 : x ^ 2 ∈ l.map (fun y => y ^ 2) := List.mem_map_of_mem _ hx
  have h2 : ∀ z ∈ l.map (fun y => y ^ 2), 0 ≤ z := by
    intro z hz
    obtain ⟨w, _, rfl⟩ := List.mem_map.mp hz
    exact sq_nonneg w
  exact lt_of_lt_of_le (pow_two_pos_of_ne_zero hx0) (List.single_le_sum h2 _ h1)

/-- Sample `k` of the clip sits at offset `frameLength / 2 + k` of the
padded signal. -/
theorem pad_getD (y : List ℝ) (k : ℕ) (hk : k < y.length) :
    (padCenter y).getD (frameLength / 2 + k) 0 = y.getD k 0 := by
  unfold padCenter
  have hlt : frameLength / 2 + k <
      (List.replicate (frameLength / 2) (0:ℝ) ++ y).length := by
    rw [List.length_append, List.length_replicate]
    omega
  rw [List.getD_append _ _ _ _ hlt]
  rw [List.getD_append_right _ _ _ _ (by rw [List.length_replicate]; omega)]
  rw [List.length_replicate, Nat.add_sub_cancel_left]

/-- The mean frame RMS of a clip with a nonzero sample is strictly
positive: the analysis frame starting at hop `k / hop` contains sample `k`,
its sum of squares is positive, so its RMS is positive, and all other RMS
values are non-negative. -/
theorem energy_pos_of_nonzero_sample (y : List ℝ) (k : ℕ) (hk : k < y.length)
    (hx : y.getD k 0 ≠ 0) : 0 < listMean (rmsList y) := by
  have hhop : hopLength = 512 := rfl
  have hfl : frameLength = 2048 := rfl
  have hhalf : frameLength / 2 = 1024 := rfl
  have hpadlen : (padCenter y).length = y.length + frameLength := padCenter_length y
  have hjle : (k / hopLength) * hopLength ≤ k := Nat.div_mul_le_self k hopLength
  have hmod : (k / hopLength) * hopLength + k % hopLength = k := by
    rw [Nat.mul_comm]
    exact Nat.div_add_mod k hopLength
  have hmodlt : k % hopLength < hopLength := Nat.mod_lt _ (by omega)
  have hjlt : k / hopLength < frameCount (padCenter y).length := by
    rw [frameCount_padded]
    exact Nat.lt_succ_of_le (Nat.div_le_div_right (le_of_lt hk))
  have hteq : (k / hopLength) * hopLength + (frameLength / 2 + (k - (k / hopLength) * hopLength)) =
      frameLength / 2 + k := by omega
  have htfl : frameLength / 2 + (k - (k / hopLength) * hopLength) < frameLength := by omega
  have htd : frameLength / 2 + (k - (k / hopLength) * hopLength) <
      ((padCenter y).drop ((k / hopLength) * hopLength)).length := by
    rw [List.length_drop, hpadlen]
    omega
  have htf : frameLength / 2 + (k - (k / hopLength) * hopLength) <
      (frameAt (padCenter y) (k / hopLength)).length := by
    unfold frameAt
    rw [List.length_take]
    exact lt_min htfl htd
  have hget : (frameAt (padCenter y) (k / hopLength)).getD
      (frameLength / 2 + (k - (k / hopLength) * hopLength)) 0 = y.getD k 0 := by
    unfold frameAt
    have h2 : frameLength / 2 + (k - (k / hopLength) * hopLength) <
        (((padCenter y).drop ((k / hopLength) * hopLength)).take frameLength).length := by
      rw [List.length_take]
      exact lt_min htfl htd
    rw [List.getD_eq_getElem _ _ h2, List.getElem_take, List.getElem_drop]
    have h3 : (k / hopLength) * hopLength +
        (frameLength / 2 + (k - (k / hopLength) * hopLength)) < (padCenter y).length := by
      rw [hpadlen]
      omega
    rw [← List.getD_eq_getElem (padCenter y) 0 h3, hteq]
    exact pad_getD y k hk
  have hmem : y.getD k 0 ∈ frameAt (padCenter y) (k / hopLength) := by
    rw [← hget, List.getD_eq_getElem _ _ htf]
    exact List.getElem_mem htf
  have hsumsq : 0 < sumSq (frameAt (padCenter y) (k / hopLength)) :=
    sumSq_pos_of_mem _ _ hmem hx
  have hepos : 0 < Real.sqrt (sumSq (frameAt (padCenter y) (k / hopLength)) / frameLength) := by
    rw [Real.sqrt_pos]
    apply div_pos hsumsq
    rw [hfl]
    norm_num
  have hemem : Real.sqrt (sumSq (frameAt (padCenter y) (k / hopLength)) / frameLength) ∈
      rmsList y := by
    unfold rmsList
    exact List.mem_map_of_mem _ (List.mem_range.mpr hjlt)
  have hall : ∀ z ∈ rmsList y, 0 ≤ z := by
    intro z hz
    unfold rmsList at hz
    obtain ⟨i, _, rfl⟩ := List.mem_map.mp hz
    exact Real.sqrt_nonneg _
  have hsum : 0 < (rmsList y).sum :=
    lt_of_lt_of_le hepos (List.single_le_sum hall _ hemem)
  have hlen : 0 < (rmsList y).length := by
    unfold rmsList
    rw [List.length_map, List.length_range, frameCount_padded]
    exact Nat.succ_pos _
  unfold listMean
  exact div_pos hsum (by exact_mod_cast hlen)

/-- C5 counterexample: the one-sample clip `[1]` is far shorter than one
analysis frame, yet the extracted features are not zero-filled — the energy
field, the mean frame RMS, is strictly positive. -/
theorem c5_counterexample :
    [(1:ℝ)].length < frameLength ∧
    ¬ zeroFilledFeatures (extractAudioFeatures trivPrims [(1:ℝ)]) := by
  constructor
  · norm_num [frameLength]
  · intro hz
    have hE : (extractAudioFeatures trivPrims [(1:ℝ)]).energy = 0 := hz.2.2.1
    have hEdef : (extractAudioFeatures trivPrims [(1:ℝ)]).energy =
        listMean (rmsList [(1:ℝ)]) := rfl
    have hpos : 0 < listMean (rmsList [(1:ℝ)]) :=
      energy_pos_of_nonzero_sample [(1:ℝ)] 0 (by norm_num) (by simp)
    rw [hEdef] at hE
    rw [hE] at hpos
    exact lt_irrefl 0 hpos

/-- C5 (amended): the extractor never fails on a short clip — the library
framing centre-pads it — and the fields are the computed feature
statistics, not zeros: any clip with a nonzero sample has strictly positive
energy; the only zero-substituted field is pitch, when no tracked pitch is
positive. -/
theorem c5_short_clip_not_zero_filled (P : LibrosaPrims) (y : List ℝ) (k : ℕ)
    (hk : k < y.length) (hx : y.getD k 0 ≠ 0) :
    0 < (extractAudioFeatures P y).energy ∧
    (((P.piptrackPitches y).filter (fun x => decide (0 < x))).isEmpty = true →
      (extractAudioFeatures P y).pitch = 0) := by
  constructor
  · have hEdef : (extractAudioFeatures P y).energy = listMean (rmsList y) := rfl
    rw [hEdef]
    exact energy_pos_of_nonzero_sample y k hk hx
  · intro h
    simp [extractAudioFeatures, h]

/-- C5 amended witness at the concrete short clip `[1]`. -/
theorem c5_short_clip_not_zero_filled_witness :
    ((0:ℕ) < [(1:ℝ)].length ∧ [(1:ℝ)].getD 0 0 ≠ 0) ∧
    (0 < (extractAudioFeatures trivPrims [(1:ℝ)]).energy ∧
      (((trivPrims.piptrackPitches [(1:ℝ)]).filter (fun x => decide (0 < x))).isEmpty = true →
        (extractAudioFeatures trivPrims [(1:ℝ)]).pitch = 0)) :=
  ⟨⟨by norm_num, by simp⟩,
    c5_short_clip_not_zero_filled trivPrims [(1:ℝ)] 0 (by norm_num) (by simp)⟩

/-- Normalization maps rows entrywise, so the column count is unchanged. -/
theorem numCols_normalizeSpec (m : List (List ℝ)) :
    numCols (normalizeSpec m) = numCols m := by
  cases m with
  | nil => rfl
  | cons r rs => exact List.length_map r _

/-- Normalization preserves rectangularity. -/
theorem rectangular_normalizeSpec (m : List (List ℝ)) (h : rectangular m) :
    rectangular (normalizeSpec m) := by
  intro r hr
  rw [numCols_normalizeSpec]
  unfold normalizeSpec at hr
  obtain ⟨r0, hr0, rfl⟩ := List.mem_map.mp hr
  rw [List.length_map]
  exact h r0 hr0

/-- Every row of the resized spectrogram has exactly `specFrames` columns:
truncation when the clip was longer, zero padding when it was shorter. -/
theorem resize_row_length (m : List (List (Option ℝ))) (h : rectangular m) :
    ∀ r ∈ resizeTimeAxis m, r.length = specFrames := by
  intro r hr
  unfold resizeTimeAxis at hr
  by_cases hlt : specFrames < numCols m
  · rw [if_pos hlt] at hr
    obtain ⟨r0, hr0, rfl⟩ := List.mem_map.mp hr
    rw [List.length_take, h r0 hr0]
    exact min_eq_left (le_of_lt hlt)
  · rw [if_neg hlt] at hr
    obtain ⟨r0, hr0, rfl⟩ := List.mem_map.mp hr
    rw [List.length_append, List.length_replicate, h r0 hr0]
    omega

/-- C6: for every clip, whatever the (rectangular) log-mel matrix the
library produces for it, the built spectrogram's time axis has exactly the
configured fixed frame count (128) in every mel row — truncated when
longer, zero-padded when shorter. -/
theorem c6_fixed_time_axis (logMel : List ℝ → List (List ℝ)) (audio : List ℝ)
    (hrect : rectangular (logMel audio)) :
    ∀ r ∈ createSpectrogram logMel audio, r.length = specFrames := by
  intro r hr
  unfold createSpectrogram at hr
  exact resize_row_length _ (rectangular_normalizeSpec _ hrect) r hr

/-- C6 witness at the silent clip, whose log-mel matrix is 128 × 44. -/
theorem c6_fixed_time_axis_witness :
    rectangular (silentLogMel silentClip) ∧
    ∀ r ∈ createSpectrogram silentLogMel silentClip, r.length = specFrames := by
  have h3 : silentLogMel silentClip = List.replicate 128 (List.replicate 44 (0:ℝ)) := rfl
  have hrect : rectangular (silentLogMel silentClip) := by
    intro r hr
    rw [h3] at hr
    have h1 : r = List.replicate 44 (0:ℝ) := List.eq_of_mem_replicate hr
    have h2 : numCols (silentLogMel silentClip) = 44 := by
      rw [h3, numCols_replicate 128 (by norm_num), List.length_replicate]
    rw [h1, h2, List.length_replicate]
  exact ⟨hrect, c6_fixed_time_axis silentLogMel silentClip hrect⟩

/-- C10 witness at a concrete distribution. -/
theorem c10_confidence_is_argmax_prob_witness :
    ([(1:ℝ), 0, 0, 0, 0, 0, 0].length = 7) ∧
    ((classifyFromProbs [(1:ℝ), 0, 0, 0, 0, 0, 0]).confidence =
        [(1:ℝ), 0, 0, 0, 0, 0, 0].getD (npArgmax [(1:ℝ), 0, 0, 0, 0, 0, 0]) 0 ∧
      (classifyFromProbs [(1:ℝ), 0, 0, 0, 0, 0, 0]).probabilities.lookup
          (classifyFromProbs [(1:ℝ), 0, 0, 0, 0, 0, 0]).emotion =
        some ((classifyFromProbs [(1:ℝ), 0, 0, 0, 0, 0, 0]).confidence) ∧
      ∀ q ∈ (classifyFromProbs [(1:ℝ), 0, 0, 0, 0, 0, 0]).probabilities,
        q.2 ≤ (classifyFromProbs [(1:ℝ), 0, 0, 0, 0, 0, 0]).confidence) :=
  ⟨rfl, c10_confidence_is_argmax_prob [(1:ℝ), 0, 0, 0, 0, 0, 0] rfl⟩

end Maitri
